import Mathlib

/-!
Verification of the WebPixels component-catalog core (`src/server.ts`,
`src/types.ts`): a shallow embedding of the data model, the catalog indexes,
the query engine, the aggregation engine, the assembly engine and the
dependency resolver, together with theorems settling the specified
properties.
-/

namespace WebPixels

/-- Component type classification.  In the source (`src/types.ts`) this is a
closed union of string literals; at runtime the values are plain strings, so
the embedding uses `String`. -/
abbrev ComponentType := String

/-- Content analysis hints (`ContentHints` in `src/types.ts`).  Descriptive
metadata only; no specified operation consumes it beyond pass-through. -/
structure ContentHints where
  has_images : Bool
  has_icons : Bool
  has_buttons : Bool
  has_form : Bool
  has_carousel : Bool
  has_video : Bool
  color_scheme : String
  layout_type : String
  deriving DecidableEq

/-- Full component record (`ComponentData` in `src/types.ts`). -/
structure ComponentData where
  id : String
  slug : String
  name : String
  type : ComponentType
  category : String
  subcategory : String
  description : String
  tags : List String
  keywords : List String
  use_cases : List String
  includes : List String
  content_hints : ContentHints
  html : String
  dependencies : List String
  used_by : List String
  similar_to : List String
  is_free : Bool
  is_published : Bool
  is_featured : Bool
  is_new : Bool
  created_at : String
  updated_at : String
  deriving DecidableEq

/-- Taxonomy child label (`Subcategory` in `src/types.ts`). -/
structure Subcategory where
  name : String
  slug : String
  description : Option String
  deriving DecidableEq

/-- Taxonomy node (`Category` in `src/types.ts`). -/
structure Category where
  slug : String
  name : String
  icon : Option String
  description : Option String
  is_published : Bool
  items : List Subcategory
  deriving DecidableEq

/-- Top-level immutable snapshot (`ComponentCatalog` in `src/types.ts`). -/
structure ComponentCatalog where
  version : String
  generated_at : String
  categories : List Category
  components : List ComponentData
  deriving DecidableEq

/-- The by-id index built by `indexData`: a JS `Map` filled in one pass with
`set(component.id, component)`, so a later entry with a duplicate key
overwrites an earlier one.  `Map.get` therefore returns the last entry whose
key matches, i.e. the first match in the reversed component list. -/
def componentsById (cat : ComponentCatalog) (key : String) : Option ComponentData :=
  cat.components.reverse.find? (fun c => c.id == key)

/-- The by-slug index built by `indexData` (`set(component.slug, component)`,
last entry wins). -/
def componentsBySlug (cat : ComponentCatalog) (key : String) : Option ComponentData :=
  cat.components.reverse.find? (fun c => c.slug == key)

/-- The category index built by `indexData` (`set(category.slug, category)`,
last entry wins). -/
def categoriesBySlug (cat : ComponentCatalog) (key : String) : Option Category :=
  cat.categories.reverse.find? (fun c => c.slug == key)

/-- `getComponent(idOrSlug)` from `src/server.ts`:
`this.componentsById.get(idOrSlug) || this.componentsBySlug.get(idOrSlug)`.
A `Map` hit is an object, hence truthy, so the slug index is consulted only
when the id index misses. -/
def getComponent (cat : ComponentCatalog) (idOrSlug : String) : Option ComponentData :=
  match componentsById cat idOrSlug with
  | some c => some c
  | none => componentsBySlug cat idOrSlug

/-- `find?` returns the unique element satisfying the predicate. -/
theorem find?_eq_some_of_unique {α : Type} (p : α → Bool) (l : List α) (c : α)
    (hmem : c ∈ l) (hp : p c = true)
    (huniq : ∀ d ∈ l, p d = true → d = c) :
    l.find? p = some c := by
  induction l with
  | nil => cases hmem
  | cons a as ih =>
    by_cases hpa : p a = true
    · rw [List.find?_cons_of_pos _ hpa]
      exact congrArg some (huniq a (List.mem_cons_self a as) hpa)
    · rw [List.find?_cons_of_neg _ (by simpa using hpa)]
      rcases List.mem_cons.mp hmem with h | h
      · exact absurd (h ▸ hp) hpa
      · exact ih h (fun d hd hpd => huniq d (List.mem_cons_of_mem a hd) hpd)

/-- C1: under well-formed catalog data (unique ids, unique slugs, the id and
slug keyspaces disjoint), looking a component up by its id returns it and
looking it up by its slug returns it; moreover `getComponent` consults the id
index first and falls back to the slug index only on an id miss. -/
theorem C1_lookup_roundtrip (cat : ComponentCatalog)
    (hid : ∀ d ∈ cat.components, ∀ e ∈ cat.components, d.id = e.id → d = e)
    (hslug : ∀ d ∈ cat.components, ∀ e ∈ cat.components, d.slug = e.slug → d = e)
    (hdisj : ∀ d ∈ cat.components, ∀ e ∈ cat.components, d.id ≠ e.slug) :
    (∀ c ∈ cat.components,
        getComponent cat c.id = some c ∧ getComponent cat c.slug = some c) ∧
    (∀ s c, componentsById cat s = some c → getComponent cat s = some c) ∧
    (∀ s, componentsById cat s = none → getComponent cat s = componentsBySlug cat s) := by
  refine ⟨fun c hc => ?_, fun s c h => by simp [getComponent, h], fun s h => by simp [getComponent, h]⟩
  have hbyId : componentsById cat c.id = some c := by
    apply find?_eq_some_of_unique
    · exact List.mem_reverse.mpr hc
    · simp
    · intro d hd hpd
      exact hid d (List.mem_reverse.mp hd) c hc (by simpa using hpd)
  have hIdMiss : componentsById cat c.slug = none := by
    apply List.find?_eq_none.mpr
    intro d hd
    simpa using hdisj d (List.mem_reverse.mp hd) c hc
  have hbySlug : componentsBySlug cat c.slug = some c := by
    apply find?_eq_some_of_unique
    · exact List.mem_reverse.mpr hc
    · simp
    · intro d hd hpd
      exact hslug d (List.mem_reverse.mp hd) c hc (by simpa using hpd)
  exact ⟨by simp [getComponent, hbyId], by simp [getComponent, hIdMiss, hbySlug]⟩

/-- Neutral content hints used by the concrete sample data. -/
def defaultHints : ContentHints :=
  { has_images := false, has_icons := false, has_buttons := false,
    has_form := false, has_carousel := false, has_video := false,
    color_scheme := "light", layout_type := "contained" }

/-- Concrete published hero component (the worked example of the spec). -/
def heroComp : ComponentData :=
  { id := "u1", slug := "section-hero-1", name := "Hero",
    type := "section", category := "sections", subcategory := "hero",
    description := "", tags := [], keywords := [], use_cases := [], includes := [],
    content_hints := defaultHints, html := "<div>Hero</div>",
    dependencies := [], used_by := ["section-pricing-1"], similar_to := [],
    is_free := true, is_published := true, is_featured := false, is_new := false,
    created_at := "", updated_at := "" }

/-- Concrete published pricing component depending on the hero component. -/
def pricingComp : ComponentData :=
  { id := "u2", slug := "section-pricing-1", name := "Pricing",
    type := "section", category := "sections", subcategory := "pricing",
    description := "", tags := [], keywords := [], use_cases := [], includes := [],
    content_hints := defaultHints, html := "<div>Pricing</div>",
    dependencies := ["section-hero-1"], used_by := [], similar_to := [],
    is_free := false, is_published := true, is_featured := false, is_new := false,
    created_at := "", updated_at := "" }

/-- Concrete published category for the sample catalog. -/
def sectionsCategory : Category :=
  { slug := "sections", name := "Sections", icon := none, description := none,
    is_published := true,
    items := [{ name := "Hero", slug := "hero", description := none },
              { name := "Pricing", slug := "pricing", description := none }] }

/-- Concrete two-component catalog used to witness the theorems. -/
def sampleCatalog : ComponentCatalog :=
  { version := "1", generated_at := "",
    categories := [sectionsCategory],
    components := [heroComp, pricingComp] }

/-- C1 witness: the round-trip theorem applied at the concrete sample catalog. -/
theorem C1_lookup_roundtrip_witness :
    getComponent sampleCatalog "u1" = some heroComp ∧
    getComponent sampleCatalog "section-hero-1" = some heroComp := by
  have h := (C1_lookup_roundtrip sampleCatalog (by decide) (by decide) (by decide)).1
    heroComp (by decide)
  exact ⟨h.1, h.2⟩

/-- Search filter record (`SearchFilters` in `src/types.ts`).  Absent filters
are `none`, mirroring `undefined`; the `limit` is a JS number, modelled as an
integer. -/
structure SearchFilters where
  query : Option String := none
  type : Option ComponentType := none
  category : Option String := none
  is_free : Option Bool := none
  is_featured : Option Bool := none
  limit : Option Int := none
  deriving DecidableEq

/-- Base result set of `searchComponents`:
`this.catalog.components.filter(c => c.is_published)`. -/
def publishedComponents (cat : ComponentCatalog) : List ComponentData :=
  cat.components.filter (fun c => c.is_published)

/-- `if (filters.type) results = results.filter(c => c.type === filters.type)`.
The guard is JS truthiness on a string: absent or empty means no-op. -/
def applyType (o : Option ComponentType) (l : List ComponentData) : List ComponentData :=
  match o with
  | some t => if t.isEmpty then l else l.filter (fun c => c.type == t)
  | none => l

/-- `if (filters.category) results = results.filter(c => c.category ===
filters.category || c.subcategory === filters.category)`. -/
def applyCategory (o : Option String) (l : List ComponentData) : List ComponentData :=
  match o with
  | some k => if k.isEmpty then l
              else l.filter (fun c => c.category == k || c.subcategory == k)
  | none => l

/-- `if (filters.is_free !== undefined) results = results.filter(c =>
c.is_free === filters.is_free)`. -/
def applyIsFree (o : Option Bool) (l : List ComponentData) : List ComponentData :=
  match o with
  | some b => l.filter (fun c => c.is_free == b)
  | none => l

/-- `if (filters.is_featured !== undefined) results = results.filter(c =>
c.is_featured === filters.is_featured)`. -/
def applyIsFeatured (o : Option Bool) (l : List ComponentData) : List ComponentData :=
  match o with
  | some b => l.filter (fun c => c.is_featured == b)
  | none => l

/-- `Array.prototype.join(sep)`. -/
def joinSep (sep : String) : List String → String
  | [] => ""
  | [x] => x
  | x :: y :: xs => x ++ sep ++ joinSep sep (y :: xs)

/-- The search haystack of `searchComponents`: `[name, slug, description || '',
category, subcategory, ...tags, ...keywords, ...use_cases].join(' ')
.toLowerCase()` (for a string field, `d || ''` is `d` when `d` is non-empty
and `''` otherwise, i.e. always `d`). -/
def searchText (c : ComponentData) : String :=
  (joinSep " " ([c.name, c.slug, c.description, c.category, c.subcategory]
    ++ c.tags ++ c.keywords ++ c.use_cases)).toLower

/-- Does `sub` occur as a contiguous run inside the list? -/
def containsSeq (sub : List Char) : List Char → Bool
  | [] => sub.isEmpty
  | a :: as => sub.isPrefixOf (a :: as) || containsSeq sub as

/-- `String.prototype.includes(sub)`: substring containment. -/
def strIncludes (s sub : String) : Bool :=
  containsSeq sub.data s.data

/-- `if (filters.query) { const query = filters.query.toLowerCase(); results =
results.filter(c => searchText.includes(query)) }`; an empty query string is
falsy, so it is a no-op. -/
def applyQuery (o : Option String) (l : List ComponentData) : List ComponentData :=
  match o with
  | some q => if q.isEmpty then l
              else l.filter (fun c => strIncludes (searchText c) q.toLower)
  | none => l

/-- `if (filters.limit && filters.limit > 0) results = results.slice(0,
filters.limit)`: a zero limit is falsy and a negative limit fails the
comparison, so truncation happens only for a positive limit. -/
def applyLimit (o : Option Int) (l : List ComponentData) : List ComponentData :=
  match o with
  | some n => if 0 < n then l.take n.toNat else l
  | none => l

/-- `searchComponents(filters)` from `src/server.ts`: published base set, then
the optional type, category-or-subcategory, is_free, is_featured and query
filters in that order, then the positive-limit truncation. -/
def searchComponents (cat : ComponentCatalog) (f : SearchFilters) : List ComponentData :=
  applyLimit f.limit
    (applyQuery f.query
      (applyIsFeatured f.is_featured
        (applyIsFree f.is_free
          (applyCategory f.category
            (applyType f.type (publishedComponents cat))))))

/-- Summary projection (`ComponentSummary` in `src/types.ts`). -/
structure ComponentSummary where
  id : String
  name : String
  slug : String
  type : ComponentType
  category : String
  subcategory : String
  description : String
  is_free : Bool
  is_featured : Bool
  tags : List String
  deriving DecidableEq

/-- `formatComponentSummary(component)` from `src/server.ts`. -/
def formatComponentSummary (c : ComponentData) : ComponentSummary :=
  { id := c.id, name := c.name, slug := c.slug, type := c.type,
    category := c.category, subcategory := c.subcategory,
    description := c.description, is_free := c.is_free,
    is_featured := c.is_featured, tags := c.tags }

/-- Arguments accepted by the `search_components` tool handler; `is_featured`
is not among them (the handler does not forward it). -/
structure SearchArgs where
  query : Option String := none
  type : Option ComponentType := none
  category : Option String := none
  is_free : Option Bool := none
  limit : Option Int := none
  deriving DecidableEq

/-- `(args.limit as number) || 20`: an absent or zero limit becomes the
default 20; any other number passes through. -/
def effectiveLimit (o : Option Int) : Option Int :=
  match o with
  | some n => if n == 0 then some 20 else some n
  | none => some 20

/-- `handleSearchComponents(args)` from `src/server.ts`, restricted to the
result list it computes: it forwards query, type, category and is_free,
defaults the limit with `|| 20`, and never forwards `is_featured`. -/
def handleSearchComponents (cat : ComponentCatalog) (a : SearchArgs) : List ComponentData :=
  searchComponents cat
    { query := a.query, type := a.type, category := a.category,
      is_free := a.is_free, is_featured := none, limit := effectiveLimit a.limit }

theorem applyType_sublist (o : Option ComponentType) (l : List ComponentData) :
    (applyType o l).Sublist l := by
  cases o with
  | none => exact List.Sublist.refl l
  | some t =>
    by_cases h : t.isEmpty <;> simp [applyType, h, List.filter_sublist]

theorem applyCategory_sublist (o : Option String) (l : List ComponentData) :
    (applyCategory o l).Sublist l := by
  cases o with
  | none => exact List.Sublist.refl l
  | some k =>
    by_cases h : k.isEmpty <;> simp [applyCategory, h, List.filter_sublist]

theorem applyIsFree_sublist (o : Option Bool) (l : List ComponentData) :
    (applyIsFree o l).Sublist l := by
  cases o with
  | none => exact List.Sublist.refl l
  | some b => exact List.filter_sublist l

theorem applyIsFeatured_sublist (o : Option Bool) (l : List ComponentData) :
    (applyIsFeatured o l).Sublist l := by
  cases o with
  | none => exact List.Sublist.refl l
  | some b => exact List.filter_sublist l

theorem applyQuery_sublist (o : Option String) (l : List ComponentData) :
    (applyQuery o l).Sublist l := by
  cases o with
  | none => exact List.Sublist.refl l
  | some q =>
    by_cases h : q.isEmpty <;> simp [applyQuery, h, List.filter_sublist]

theorem applyLimit_sublist (o : Option Int) (l : List ComponentData) :
    (applyLimit o l).Sublist l := by
  cases o with
  | none => exact List.Sublist.refl l
  | some n =>
    by_cases h : (0:Int) < n <;> simp [applyLimit, h, List.take_sublist]

/-- Any search result list is a sublist of the published base set. -/
theorem searchComponents_sublist_published (cat : ComponentCatalog) (f : SearchFilters) :
    (searchComponents cat f).Sublist (publishedComponents cat) :=
  ((((applyLimit_sublist _ _).trans (applyQuery_sublist _ _)).trans
    (applyIsFeatured_sublist _ _)).trans (applyIsFree_sublist _ _)).trans
      ((applyCategory_sublist _ _).trans (applyType_sublist _ _))

/-- Any search result list is a sublist of the catalog, hence in catalog order. -/
theorem searchComponents_sublist (cat : ComponentCatalog) (f : SearchFilters) :
    (searchComponents cat f).Sublist cat.components :=
  (searchComponents_sublist_published cat f).trans (List.filter_sublist _)

/-- Every search result is published, whatever the filters. -/
theorem searchComponents_published (cat : ComponentCatalog) (f : SearchFilters) :
    ∀ c ∈ searchComponents cat f, c.is_published = true := by
  intro c hc
  have := (searchComponents_sublist_published cat f).subset hc
  exact (List.mem_filter.mp this).2

/-- C2: search with no filters through the public handler (which defaults the
limit to 20) returns exactly the first 20 published components — hence at most
20 results, all published, in original catalog insertion order — and no
unpublished component ever appears in any search result, whatever the filters. -/
theorem C2_default_search (cat : ComponentCatalog) :
    handleSearchComponents cat {} = (publishedComponents cat).take 20 ∧
    (handleSearchComponents cat {}).length ≤ 20 ∧
    (∀ c ∈ handleSearchComponents cat {}, c.is_published = true) ∧
    (handleSearchComponents cat {}).Sublist cat.components ∧
    (∀ f : SearchFilters, ∀ c ∈ searchComponents cat f, c.is_published = true) := by
  have hdef : handleSearchComponents cat {} = (publishedComponents cat).take 20 := rfl
  refine ⟨hdef, ?_, ?_, ?_, fun f => searchComponents_published cat f⟩
  · rw [hdef, List.length_take]
    exact min_le_left _ _
  · exact fun c hc => searchComponents_published cat _ c hc
  · exact searchComponents_sublist cat _

/-- C2 witness: the theorem applied at the concrete sample catalog, whose two
published components are both returned by the unfiltered default search. -/
theorem C2_default_search_witness :
    handleSearchComponents sampleCatalog {} = [heroComp, pricingComp] ∧
    heroComp.is_published = true := by
  have h := C2_default_search sampleCatalog
  exact ⟨by decide, h.2.2.1 heroComp (by decide)⟩

/-- C5: whenever the `is_featured` filter is present with value `b`, every
component returned by `searchComponents` has `is_featured = b`, and any
component whose `is_featured` differs from `b` is excluded from the results. -/
theorem C5_is_featured_filter (cat : ComponentCatalog) (f : SearchFilters) (b : Bool)
    (hb : f.is_featured = some b) :
    (∀ c ∈ searchComponents cat f, c.is_featured = b) ∧
    (∀ c : ComponentData, c.is_featured ≠ b → c ∉ searchComponents cat f) := by
  have hall : ∀ c ∈ searchComponents cat f, c.is_featured = b := by
    intro c hc
    have h1 := (applyLimit_sublist f.limit _).subset hc
    have h2 := (applyQuery_sublist f.query _).subset h1
    rw [hb] at h2
    simp only [applyIsFeatured] at h2
    simpa using (List.mem_filter.mp h2).2
  exact ⟨hall, fun c hne hc => hne (hall c hc)⟩

/-- C5 witness: the theorem applied at the sample catalog with the filter
`is_featured := false`, which keeps the (non-featured) hero component. -/
theorem C5_is_featured_filter_witness :
    heroComp ∈ searchComponents sampleCatalog { is_featured := some false } ∧
    heroComp.is_featured = false := by
  refine ⟨by decide, ?_⟩
  exact (C5_is_featured_filter sampleCatalog { is_featured := some false } false rfl).1
    heroComp (by decide)

/-- A minimal published component with distinct id/slug/name, used to build
larger concrete catalogs. -/
def mkComp (slug : String) (free : Bool) : ComponentData :=
  { id := slug, slug := slug, name := slug,
    type := "section", category := "sections", subcategory := "",
    description := "", tags := [], keywords := [], use_cases := [], includes := [],
    content_hints := defaultHints, html := slug,
    dependencies := [], used_by := [], similar_to := [],
    is_free := free, is_published := true, is_featured := false, is_new := false,
    created_at := "", updated_at := "" }

/-- Twenty-one published components: twenty paid ones followed by one free one.
More published components than the default search limit of 20. -/
def wideCatalog : ComponentCatalog :=
  { version := "1", generated_at := "", categories := [],
    components :=
      ((List.range 20).map (fun i => mkComp ("c" ++ toString i) false))
        ++ [mkComp "freebie" true] }

/-- The search filters the `search_components` handler passes on, with the
limit cleared: the handler forwards query, type, category and is_free and
never forwards `is_featured`. -/
def unlimitedFilters (a : SearchArgs) : SearchFilters :=
  { query := a.query, type := a.type, category := a.category,
    is_free := a.is_free, is_featured := none, limit := none }

/-- The public search handler is the untruncated search followed by the
effective-limit truncation. -/
theorem handleSearch_decomp (cat : ComponentCatalog) (a : SearchArgs) :
    handleSearchComponents cat a =
      applyLimit (effectiveLimit a.limit) (searchComponents cat (unlimitedFilters a)) := rfl

/-- A non-positive limit is a no-op for `searchComponents`. -/
theorem applyLimit_nonpos {n : Int} (hn : ¬ 0 < n) (l : List ComponentData) :
    applyLimit (some n) l = l := by
  simp [applyLimit, hn]

/-- C4 counterexample: on the 21-component catalog, the free component is
returned by `search({is_free: true})` at the default limit but not by
`search({})` at the default limit (the unfiltered search is truncated to the
first 20 components, all paid), so the claimed subset relation fails. -/
theorem C4_subset_counterexample :
    mkComp "freebie" true ∈ handleSearchComponents wideCatalog { is_free := some true } ∧
    mkComp "freebie" true ∉ handleSearchComponents wideCatalog {} := by
  decide

/-- C4 (amended): every component returned by `search({is_free: true})` has
`is_free = true`; the untruncated free search is a subset of the untruncated
unfiltered search; and when the catalog has at most 20 published components
(so the default limit truncates nothing) the subset relation also holds
through the public handler at the default limit. -/
theorem C4_free_search_subset (cat : ComponentCatalog) :
    (∀ c ∈ handleSearchComponents cat { is_free := some true }, c.is_free = true) ∧
    (∀ c ∈ searchComponents cat { is_free := some true },
        c ∈ searchComponents cat ({} : SearchFilters)) ∧
    ((publishedComponents cat).length ≤ 20 →
      ∀ c ∈ handleSearchComponents cat { is_free := some true },
        c ∈ handleSearchComponents cat {}) := by
  have hfree : ∀ f : SearchFilters, f.is_free = some true →
      ∀ c ∈ searchComponents cat f, c.is_free = true := by
    intro f hf c hc
    have h1 := (applyLimit_sublist f.limit _).subset hc
    have h2 := (applyQuery_sublist f.query _).subset h1
    have h3 := (applyIsFeatured_sublist f.is_featured _).subset h2
    rw [hf] at h3
    simp only [applyIsFree] at h3
    simpa using (List.mem_filter.mp h3).2
  refine ⟨fun c hc => hfree _ rfl c hc, ?_, ?_⟩
  · intro c hc
    exact (searchComponents_sublist_published cat _).subset hc
  · intro hp c hc
    have e1 : handleSearchComponents cat { is_free := some true } =
        ((publishedComponents cat).filter (fun c => c.is_free == true)).take 20 := rfl
    have e2 : handleSearchComponents cat {} = (publishedComponents cat).take 20 := rfl
    rw [e2, List.take_of_length_le hp]
    rw [e1] at hc
    exact List.mem_of_mem_filter ((List.take_sublist _ _).subset hc)

/-- C4 witness: the amended theorem applied at the concrete sample catalog,
whose two published components fit under the default limit. -/
theorem C4_free_search_subset_witness :
    heroComp ∈ handleSearchComponents sampleCatalog { is_free := some true } ∧
    heroComp.is_free = true ∧
    (publishedComponents sampleCatalog).length ≤ 20 ∧
    heroComp ∈ handleSearchComponents sampleCatalog {} := by
  have h := C4_free_search_subset sampleCatalog
  exact ⟨by decide, h.1 heroComp (by decide), by decide,
    h.2.2 (by decide) heroComp (by decide)⟩

/-- C10: through the public handler, a supplied limit of 0 is replaced by the
default of 20 (the matches are truncated to the first 20); a negative limit
disables truncation entirely, returning every matching component; hence a
positive-limit search never returns more results than the same search with a
negative limit — and on the 21-component catalog a negative limit returns
strictly more results than the positive limit 1. -/
theorem C10_limit_semantics (cat : ComponentCatalog) (a : SearchArgs) :
    (handleSearchComponents cat { a with limit := some 0 } =
      (searchComponents cat (unlimitedFilters a)).take 20) ∧
    (∀ n : Int, n < 0 →
      handleSearchComponents cat { a with limit := some n } =
        searchComponents cat (unlimitedFilters a)) ∧
    (∀ m n : Int, 0 < m → n < 0 →
      (handleSearchComponents cat { a with limit := some m }).length ≤
        (handleSearchComponents cat { a with limit := some n }).length) ∧
    ((handleSearchComponents wideCatalog { limit := some 1 }).length <
      (handleSearchComponents wideCatalog { limit := some (-1) }).length) := by
  have hneg : ∀ n : Int, n < 0 →
      handleSearchComponents cat { a with limit := some n } =
        searchComponents cat (unlimitedFilters a) := by
    intro n hn
    rw [handleSearch_decomp]
    have he : effectiveLimit (some n) = some n := by
      have : (n == 0) = false := by simp [hn.ne]
      simp [effectiveLimit, this]
    show applyLimit (effectiveLimit (some n)) _ = _
    rw [he, applyLimit_nonpos (by omega)]
    rfl
  refine ⟨rfl, hneg, ?_, by decide⟩
  intro m n hm hn
  rw [hneg n hn]
  have hp : handleSearchComponents cat { a with limit := some m } =
      (searchComponents cat (unlimitedFilters a)).take m.toNat := by
    rw [handleSearch_decomp]
    have he : effectiveLimit (some m) = some m := by
      have : (m == 0) = false := by simp [hm.ne']
      simp [effectiveLimit, this]
    show applyLimit (effectiveLimit (some m)) _ = _
    rw [he]
    simp only [applyLimit, if_pos hm]
    rfl
  rw [hp, List.length_take]
  exact min_le_right _ _

/-- C10 witness: the theorem applied at the sample catalog with the concrete
limits 0, −1 and 1. -/
theorem C10_limit_semantics_witness :
    ((-1 : Int) < 0) ∧ ((0 : Int) < 1) ∧
    handleSearchComponents sampleCatalog { limit := some (-1) } =
      searchComponents sampleCatalog (unlimitedFilters {}) ∧
    (handleSearchComponents sampleCatalog { limit := some 1 }).length ≤
      (handleSearchComponents sampleCatalog { limit := some (-1) }).length := by
  have h := C10_limit_semantics sampleCatalog {}
  exact ⟨by decide, by decide, h.2.1 (-1) (by decide), h.2.2.1 1 (-1) (by decide) (by decide)⟩

/-- Outcome of `handleAssemblePage`: the empty-input validation payload
(`{error: 'No components provided'}`), the not-found payload
(`{error: 'Components not found', missing}`), both flagged `isError`, or the
assembled HTML text. -/
inductive AssembleResult
  | validationError (msg : String)
  | notFoundError (missing : List String)
  | ok (html : String)
  deriving DecidableEq

/-- The fixed full-document skeleton `handleAssemblePage` wraps the body in
when `includeAssets` is true. -/
def docShell (body : String) : String :=
  "<!DOCTYPE html>\n<html lang=\"en\">\n<head>\n  <meta charset=\"UTF-8\">\n  <meta name=\"viewport\" content=\"width=device-width, initial-scale=1.0\">\n  <title>WebPixels Page</title>\n  <!-- Bootstrap CSS -->\n  <link href=\"https://cdn.jsdelivr.net/npm/bootstrap@5.3.3/dist/css/bootstrap.min.css\" rel=\"stylesheet\">\n  <!-- Bootstrap Icons -->\n  <link href=\"https://cdn.jsdelivr.net/npm/bootstrap-icons@1.11.3/font/bootstrap-icons.min.css\" rel=\"stylesheet\">\n  <!-- WebPixels CSS -->\n  <link href=\"https://cdn.jsdelivr.net/npm/@webpixels/css@latest/dist/index.css\" rel=\"stylesheet\">\n</head>\n<body>\n"
    ++ body
    ++ "\n  <!-- Bootstrap JS -->\n  <script src=\"https://cdn.jsdelivr.net/npm/bootstrap@5.3.3/dist/js/bootstrap.bundle.min.js\"></script>\n</body>\n</html>"

/-- `handleAssemblePage(args)` from `src/server.ts`.  `includeAssets` is
`args.includeAssets !== false` (absent means true).  An empty reference list
is the validation error; otherwise every reference is checked against
`getComponent` and, if any misses, the not-found payload carries all missing
references; otherwise the resolved `html` fields are joined with a blank-line
separator in input order and optionally wrapped in the document shell. -/
def handleAssemblePage (cat : ComponentCatalog) (componentIds : List String)
    (includeAssetsArg : Option Bool) : AssembleResult :=
  let includeAssets := match includeAssetsArg with
    | some false => false
    | _ => true
  if componentIds.isEmpty then
    AssembleResult.validationError "No components provided"
  else
    let missing := componentIds.filter (fun id => (getComponent cat id).isNone)
    if !missing.isEmpty then
      AssembleResult.notFoundError missing
    else
      let parts := componentIds.filterMap (fun id => (getComponent cat id).map (fun c => c.html))
      let body := joinSep "\n\n" parts
      AssembleResult.ok (if includeAssets then docShell body else body)

/-- C3: assembling an empty reference list yields the validation-error payload,
which differs from every not-found payload; and when any reference fails to
resolve by id-or-slug, the result is the not-found payload whose `missing`
list holds exactly the references that fail to resolve, and no HTML (partial
or complete) is emitted. -/
theorem C3_assemble_errors (cat : ComponentCatalog) (ids : List String) (ia : Option Bool)
    (hbad : ∃ r ∈ ids, getComponent cat r = none) :
    (∀ ia' : Option Bool, handleAssemblePage cat [] ia' =
      AssembleResult.validationError "No components provided") ∧
    (∀ m : List String, AssembleResult.validationError "No components provided" ≠
      AssembleResult.notFoundError m) ∧
    (∃ m, handleAssemblePage cat ids ia = AssembleResult.notFoundError m ∧
      (∀ r, r ∈ m ↔ r ∈ ids ∧ getComponent cat r = none)) ∧
    (∀ h, handleAssemblePage cat ids ia ≠ AssembleResult.ok h) := by
  obtain ⟨r0, hr0, hr0none⟩ := hbad
  have hne : ids.isEmpty = false := by
    cases ids with
    | nil => cases hr0
    | cons a as => rfl
  have hr0mem : r0 ∈ ids.filter (fun id => (getComponent cat id).isNone) := by
    rw [List.mem_filter]
    exact ⟨hr0, by simp [hr0none]⟩
  have hmiss : (ids.filter (fun id => (getComponent cat id).isNone)).isEmpty = false := by
    cases h : ids.filter (fun id => (getComponent cat id).isNone) with
    | nil => rw [h] at hr0mem; cases hr0mem
    | cons a as => rfl
  have hres : handleAssemblePage cat ids ia =
      AssembleResult.notFoundError (ids.filter (fun id => (getComponent cat id).isNone)) := by
    simp only [handleAssemblePage, hne, hmiss]
    rfl
  refine ⟨fun ia' => rfl, fun m => by simp, ⟨_, hres, fun r => ?_⟩, fun h => by simp [hres]⟩
  simp [List.mem_filter, Option.isNone_iff_eq_none]

/-- C3 witness: the theorem applied at the sample catalog with the reference
list `["section-hero-1", "nonexistent-slug"]`. -/
theorem C3_assemble_errors_witness :
    handleAssemblePage sampleCatalog [] (some true) =
      AssembleResult.validationError "No components provided" ∧
    handleAssemblePage sampleCatalog ["section-hero-1", "nonexistent-slug"] (some true) ≠
      AssembleResult.ok "<div>Hero</div>" := by
  have h := C3_assemble_errors sampleCatalog ["section-hero-1", "nonexistent-slug"] (some true)
    ⟨"nonexistent-slug", by decide, by decide⟩
  exact ⟨h.1 (some true), h.2.2.2 "<div>Hero</div>"⟩

/-- C7: for two resolvable references, assembly with `includeAssets = false`
returns exactly `html(a) ++ "\n\n" ++ html(b)`: the references are resolved in
input order and their `html` fields concatenated with a blank-line separator,
with no deduplication and no reordering. -/
theorem C7_assemble_pair (cat : ComponentCatalog) (a b : String)
    (ca cb : ComponentData)
    (ha : getComponent cat a = some ca) (hb : getComponent cat b = some cb) :
    handleAssemblePage cat [a, b] (some false) =
      AssembleResult.ok (ca.html ++ "\n\n" ++ cb.html) := by
  simp [handleAssemblePage, ha, hb, joinSep]

/-- C7 witness: the theorem applied at the sample catalog's hero and pricing
components. -/
theorem C7_assemble_pair_witness :
    handleAssemblePage sampleCatalog ["section-hero-1", "section-pricing-1"] (some false) =
      AssembleResult.ok ("<div>Hero</div>" ++ "\n\n" ++ "<div>Pricing</div>") :=
  C7_assemble_pair sampleCatalog "section-hero-1" "section-pricing-1" heroComp pricingComp
    (by decide) (by decide)

/-- One step of the stats pass in `handleListCategories`: skip unpublished
components, otherwise create-or-increment the entry keyed by the component's
`category` field (`stat.count++`, and `stat.freeCount++` when `is_free`).
The JS `Map` is modelled as the function from keys to optional entries. -/
def stepStat (m : String → Option (Nat × Nat)) (c : ComponentData) :
    String → Option (Nat × Nat) :=
  if c.is_published then
    fun k =>
      if k == c.category then
        some (((m c.category).getD (0, 0)).1 + 1,
          if c.is_free then ((m c.category).getD (0, 0)).2 + 1
          else ((m c.category).getD (0, 0)).2)
      else m k
  else m

/-- The `categoryStats` map built by `handleListCategories` in one pass over
the component list. -/
def categoryStats (cat : ComponentCatalog) : String → Option (Nat × Nat) :=
  cat.components.foldl stepStat (fun _ => none)

/-- One output row of `list_categories`. -/
structure CategoryOut where
  slug : String
  name : String
  icon : Option String
  componentCount : Nat
  freeCount : Nat
  subcategories : List (String × String)
  deriving DecidableEq

/-- `handleListCategories(args)` from `src/server.ts`: the published
categories, in order, each paired with the stats entry for its slug
(`stat?.count || 0`, `stat?.freeCount || 0`) and its declared subcategory
slug/name pairs. -/
def handleListCategories (cat : ComponentCatalog) : List CategoryOut :=
  let stats := categoryStats cat
  (cat.categories.filter (fun c => c.is_published)).map (fun g =>
    { slug := g.slug, name := g.name, icon := g.icon,
      componentCount := ((stats g.slug).map Prod.fst).getD 0,
      freeCount := ((stats g.slug).map Prod.snd).getD 0,
      subcategories := g.items.map (fun i => (i.slug, i.name)) })

/-- Number of published components whose `category` field equals the key. -/
def countPub (comps : List ComponentData) (key : String) : Nat :=
  (comps.filter (fun c => c.is_published && c.category == key)).length

/-- Number of published free components whose `category` field equals the key. -/
def countPubFree (comps : List ComponentData) (key : String) : Nat :=
  (comps.filter (fun c => (c.is_published && c.category == key) && c.is_free)).length

theorem countPubFree_le (comps : List ComponentData) (key : String) :
    countPubFree comps key ≤ countPub comps key := by
  unfold countPub countPubFree
  induction comps with
  | nil => simp
  | cons c cs ih =>
    by_cases h : (c.is_published && c.category == key) = true
    · by_cases hf : c.is_free = true
      · simp [List.filter_cons, h, hf]; omega
      · simp only [List.filter_cons, h, Bool.and_eq_true] at *
        simp [List.filter_cons, h, hf]
        omega
    · simp only [List.filter_cons]
      rw [if_neg (by simp_all), if_neg (by simp_all)]
      exact ih

/-- The stats fold at a key returns the starting entry when no published
component maps to the key, and otherwise the starting entry incremented by the
published and published-free counts for the key. -/
theorem foldl_stepStat_spec (comps : List ComponentData)
    (m : String → Option (Nat × Nat)) (key : String) :
    (comps.foldl stepStat m) key =
      if countPub comps key = 0 then m key
      else some (((m key).getD (0, 0)).1 + countPub comps key,
                 ((m key).getD (0, 0)).2 + countPubFree comps key) := by
  induction comps generalizing m with
  | nil => simp [countPub, countPubFree]
  | cons c cs ih =>
    rw [List.foldl_cons, ih]
    by_cases hpub : c.is_published = true
    · by_cases hcat : (key == c.category) = true
      · have hkey : c.category = key := (beq_iff_eq.mp hcat).symm
        have hpred : (c.is_published && c.category == key) = true := by
          simp [hpub, hkey]
        have hstep : stepStat m c key =
            some (((m key).getD (0, 0)).1 + 1,
              if c.is_free then ((m key).getD (0, 0)).2 + 1
              else ((m key).getD (0, 0)).2) := by
          simp [stepStat, hpub, hcat, hkey]
        have hcp : countPub (c :: cs) key = countPub cs key + 1 := by
          simp [countPub, List.filter_cons, hpred]
        by_cases hfree : c.is_free = true
        · have hcf : countPubFree (c :: cs) key = countPubFree cs key + 1 := by
            simp [countPubFree, List.filter_cons, hpred, hfree]
          rw [hstep, hcp, hcf]
          by_cases h0 : countPub cs key = 0
          · have hf0 : countPubFree cs key = 0 :=
              Nat.le_zero.mp (h0 ▸ countPubFree_le cs key)
            simp [h0, hf0, hfree]
          · rw [if_neg h0, if_neg (by omega : ¬ countPub cs key + 1 = 0)]
            simp [hfree, Prod.ext_iff]
            omega
        · have hcf : countPubFree (c :: cs) key = countPubFree cs key := by
            simp [countPubFree, List.filter_cons, hpred, hfree]
          rw [hstep, hcp, hcf]
          by_cases h0 : countPub cs key = 0
          · have hf0 : countPubFree cs key = 0 :=
              Nat.le_zero.mp (h0 ▸ countPubFree_le cs key)
            simp [h0, hf0, hfree]
          · rw [if_neg h0, if_neg (by omega : ¬ countPub cs key + 1 = 0)]
            simp [hfree, Prod.ext_iff]
            omega
      · have hne : key ≠ c.category := fun h => hcat (by simp [h])
        have hfalse : (key == c.category) = false := beq_eq_false_iff_ne.mpr hne
        have hck : (c.category == key) = false := beq_eq_false_iff_ne.mpr hne.symm
        have hstep : stepStat m c key = m key := by
          simp [stepStat, hpub, hfalse]
        have hpred : (c.is_published && c.category == key) = false := by
          simp [hck]
        have hcp : countPub (c :: cs) key = countPub cs key := by
          simp [countPub, List.filter_cons, hpred]
        have hcf : countPubFree (c :: cs) key = countPubFree cs key := by
          simp [countPubFree, List.filter_cons, hpred]
        rw [hstep, hcp, hcf]
    · have hstep : stepStat m c = m := by
        simp [stepStat, hpub]
      have hpred : (c.is_published && c.category == key) = false := by
        simp_all
      have hcp : countPub (c :: cs) key = countPub cs key := by
        simp [countPub, List.filter_cons, hpred]
      have hcf : countPubFree (c :: cs) key = countPubFree cs key := by
        simp [countPubFree, List.filter_cons, hpred]
      rw [hstep, hcp, hcf]

/-- The stats map read back with the handler's `|| 0` defaults yields exactly
the published count and published-free count for the key. -/
theorem categoryStats_count (cat : ComponentCatalog) (key : String) :
    ((categoryStats cat key).map Prod.fst).getD 0 = countPub cat.components key ∧
    ((categoryStats cat key).map Prod.snd).getD 0 = countPubFree cat.components key := by
  unfold categoryStats
  rw [foldl_stepStat_spec]
  by_cases h : countPub cat.components key = 0
  · have hf : countPubFree cat.components key = 0 :=
      Nat.le_zero.mp (h ▸ countPubFree_le cat.components key)
    simp [h, hf]
  · simp [h]

/-- C8: every `list_categories` row reports as `componentCount` the number of
published components whose `category` equals the row's slug and as `freeCount`
the number of those that are additionally free; every published category
yields a row (counts default to 0 when nothing matches), and every row comes
from a published category — unpublished categories never contribute one. -/
theorem C8_list_categories (cat : ComponentCatalog) :
    (∀ o ∈ handleListCategories cat,
      o.componentCount =
        (cat.components.filter (fun c => c.is_published && c.category == o.slug)).length ∧
      o.freeCount =
        (cat.components.filter
          (fun c => (c.is_published && c.category == o.slug) && c.is_free)).length) ∧
    (∀ g ∈ cat.categories, g.is_published = true →
      ∃ o ∈ handleListCategories cat, o.slug = g.slug ∧ o.name = g.name) ∧
    (∀ o ∈ handleListCategories cat,
      ∃ g ∈ cat.categories, g.is_published = true ∧ o.slug = g.slug) := by
  refine ⟨?_, ?_, ?_⟩
  · intro o ho
    obtain ⟨g, hg, rfl⟩ := List.mem_map.mp ho
    exact categoryStats_count cat g.slug
  · intro g hg hpub
    refine ⟨_, List.mem_map_of_mem _ (List.mem_filter.mpr ⟨hg, hpub⟩), rfl, rfl⟩
  · intro o ho
    obtain ⟨g, hg, rfl⟩ := List.mem_map.mp ho
    exact ⟨g, (List.mem_filter.mp hg).1, (List.mem_filter.mp hg).2, rfl⟩

/-- C8 witness: on the sample catalog the published `sections` category yields
a row, and its counts are the published total 2 and the free total 1. -/
theorem C8_list_categories_witness :
    (∃ o ∈ handleListCategories sampleCatalog, o.slug = "sections" ∧ o.name = "Sections") ∧
    (List.filter (fun c => c.is_published && c.category == "sections")
      sampleCatalog.components).length = 2 := by
  refine ⟨(C8_list_categories sampleCatalog).2.1 sectionsCategory (by decide) (by decide), by decide⟩

/-- Outcome of `handleGetDependencies`: the not-found payload, or the result
holding the queried component's minimal identity plus whichever of
`dependencies`/`dependents` the direction requested. -/
inductive DepResult
  | notFound (msg : String)
  | ok (id slug name : String) (dependencies : Option (List ComponentSummary))
      (dependents : Option (List ComponentSummary))
  deriving DecidableEq

/-- `handleGetDependencies(args)` from `src/server.ts`: the direction is
`(args.direction as string) || 'both'` (absent or empty means `both`); a
missing component is the error payload; otherwise each slug of the
`dependencies` (resp. `used_by`) list is looked up in the slug index, the
unresolved ones dropped (`.filter(c => c !== undefined)`), and the survivors
emitted as summaries, under the `dependencies` (resp. `dependents`) key when
the direction asks for that side. -/
def handleGetDependencies (cat : ComponentCatalog) (id : String)
    (direction : Option String) : DepResult :=
  let dir := match direction with
    | some d => if d.isEmpty then "both" else d
    | none => "both"
  match getComponent cat id with
  | none => DepResult.notFound ("Component not found: " ++ id)
  | some c =>
    let deps := if dir == "dependencies" || dir == "both" then
        some ((c.dependencies.filterMap (fun slug => componentsBySlug cat slug)).map
          formatComponentSummary)
      else none
    let dependents := if dir == "dependents" || dir == "both" then
        some ((c.used_by.filterMap (fun slug => componentsBySlug cat slug)).map
          formatComponentSummary)
      else none
    DepResult.ok c.id c.slug c.name deps dependents

/-- A slug-index hit returns a component carrying that very slug. -/
theorem componentsBySlug_slug {cat : ComponentCatalog} {s : String} {e : ComponentData}
    (h : componentsBySlug cat s = some e) : e.slug = s := by
  have h' : cat.components.reverse.find? (fun c => c.slug == s) = some e := h
  have h2 := List.find?_some (p := fun c : ComponentData => c.slug == s) (a := e) h'
  simpa using h2

/-- The slugs of the resolved-and-summarised list are exactly the resolvable
slugs of the input list, in input order. -/
theorem deps_slugs (cat : ComponentCatalog) (slugs : List String) :
    (((slugs.filterMap (fun s => componentsBySlug cat s)).map formatComponentSummary).map
        ComponentSummary.slug) =
      slugs.filter (fun s => (componentsBySlug cat s).isSome) := by
  induction slugs with
  | nil => rfl
  | cons s rest ih =>
    cases h : componentsBySlug cat s with
    | none => simpa [List.filterMap_cons, List.filter_cons, h] using ih
    | some e =>
      have hs : e.slug = s := componentsBySlug_slug h
      simpa [List.filterMap_cons, List.filter_cons, h, formatComponentSummary, hs] using ih

/-- Every summary in the resolved list round-trips through the slug index. -/
theorem deps_resolve (cat : ComponentCatalog) (slugs : List String) :
    ∀ d ∈ ((slugs.filterMap (fun s => componentsBySlug cat s)).map formatComponentSummary),
      ∃ e, componentsBySlug cat d.slug = some e ∧ d = formatComponentSummary e := by
  intro d hd
  obtain ⟨e, he, rfl⟩ := List.mem_map.mp hd
  obtain ⟨s, _, hlook⟩ := List.mem_filterMap.mp he
  refine ⟨e, ?_, rfl⟩
  have hs : (formatComponentSummary e).slug = s := componentsBySlug_slug hlook
  rw [hs]
  exact hlook

/-- C9: for a resolvable component, direction `dependencies` emits only
entries that resolve in the slug index — every slug of the `dependencies` list
that fails to resolve is silently omitted, never an error — and the emitted
summaries list exactly the resolvable slugs in original list order; the same
holds for the `used_by` list under direction `dependents`. -/
theorem C9_dependency_resolution (cat : ComponentCatalog) (r : String) (c : ComponentData)
    (hr : getComponent cat r = some c) :
    (∃ L, handleGetDependencies cat r (some "dependencies") =
        DepResult.ok c.id c.slug c.name (some L) none ∧
      L.map ComponentSummary.slug =
        c.dependencies.filter (fun s => (componentsBySlug cat s).isSome) ∧
      ∀ d ∈ L, ∃ e, componentsBySlug cat d.slug = some e ∧ d = formatComponentSummary e) ∧
    (∃ M, handleGetDependencies cat r (some "dependents") =
        DepResult.ok c.id c.slug c.name none (some M) ∧
      M.map ComponentSummary.slug =
        c.used_by.filter (fun s => (componentsBySlug cat s).isSome) ∧
      ∀ d ∈ M, ∃ e, componentsBySlug cat d.slug = some e ∧ d = formatComponentSummary e) := by
  constructor
  · refine ⟨(c.dependencies.filterMap (fun s => componentsBySlug cat s)).map
      formatComponentSummary, ?_, deps_slugs cat c.dependencies, deps_resolve cat c.dependencies⟩
    unfold handleGetDependencies
    rw [hr]
    rfl
  · refine ⟨(c.used_by.filterMap (fun s => componentsBySlug cat s)).map
      formatComponentSummary, ?_, deps_slugs cat c.used_by, deps_resolve cat c.used_by⟩
    unfold handleGetDependencies
    rw [hr]
    rfl

/-- C9 witness: the theorem applied at the sample catalog's pricing component,
whose single declared dependency resolves to the hero component. -/
theorem C9_dependency_resolution_witness :
    ∃ L, handleGetDependencies sampleCatalog "section-pricing-1" (some "dependencies") =
        DepResult.ok pricingComp.id pricingComp.slug pricingComp.name (some L) none ∧
      L.map ComponentSummary.slug =
        pricingComp.dependencies.filter
          (fun s => (componentsBySlug sampleCatalog s).isSome) := by
  obtain ⟨L, h1, h2, h3⟩ :=
    (C9_dependency_resolution sampleCatalog "section-pricing-1" pricingComp (by decide)).1
  exact ⟨L, h1, h2⟩

/-- Arguments record of a tool call (`arguments` in the request), with absent
fields as `none`.  The `components` list models `args.components as string[]`,
with the absent case folded into the empty list (both take the same
validation-error branch in `handleAssemblePage`). -/
structure ToolArgs where
  query : Option String := none
  type : Option ComponentType := none
  category : Option String := none
  is_free : Option Bool := none
  limit : Option Int := none
  id : Option String := none
  direction : Option String := none
  components : List String := []
  includeAssets : Option Bool := none
  deriving DecidableEq

/-- The structured payload a tool handler delivers (always successfully): a
search result page, a `{error}` payload, a full component record, the category
rows, an assembly outcome or a dependency outcome. -/
inductive ToolResponse
  | searchResults (count : Nat) (components : List ComponentSummary)
  | componentError (msg : String)
  | componentFull (c : ComponentData)
  | categories (rows : List CategoryOut)
  | assembled (r : AssembleResult)
  | depResult (r : DepResult)
  deriving DecidableEq

/-- `handleGetComponent(args)` from `src/server.ts`: a missing or unresolvable
id-or-slug becomes the `{error}` payload (an absent `id` is the JS `undefined`,
which misses every string key and is rendered as `undefined` in the message);
a hit returns the full record. -/
def handleGetComponent (cat : ComponentCatalog) (id : Option String) : ToolResponse :=
  match id with
  | none => ToolResponse.componentError "Component not found: undefined"
  | some s =>
    match getComponent cat s with
    | none => ToolResponse.componentError ("Component not found: " ++ s)
    | some c => ToolResponse.componentFull c

/-- The `CallToolRequestSchema` dispatch of `setupToolHandlers`: the five known
tool names call their handlers and deliver structured payloads; any other name
is `throw new Error('Unknown tool: ...')`, modelled as `Except.error`. -/
def callTool (cat : ComponentCatalog) (name : String) (args : ToolArgs) :
    Except String ToolResponse :=
  if name == "search_components" then
    let results := handleSearchComponents cat
      { query := args.query, type := args.type, category := args.category,
        is_free := args.is_free, limit := args.limit }
    Except.ok (ToolResponse.searchResults results.length (results.map formatComponentSummary))
  else if name == "get_component" then
    Except.ok (handleGetComponent cat args.id)
  else if name == "list_categories" then
    Except.ok (ToolResponse.categories (handleListCategories cat))
  else if name == "assemble_page" then
    Except.ok (ToolResponse.assembled (handleAssemblePage cat args.components args.includeAssets))
  else if name == "get_component_dependencies" then
    Except.ok (ToolResponse.depResult
      (match args.id with
       | none => DepResult.notFound "Component not found: undefined"
       | some s => handleGetDependencies cat s args.direction))
  else
    Except.error ("Unknown tool: " ++ name)

/-- A resource read payload: the full catalog listing, a category view, or a
single full component record. -/
inductive ResourceOut
  | catalogList (totalCount : Nat) (components : List ComponentSummary)
  | categoryView (category : Option (String × String × Option String)) (count : Nat)
      (components : List ComponentSummary)
  | componentView (c : ComponentData)
  deriving DecidableEq

/-- `handleCatalogResource` from `src/server.ts`: all published components as
summaries with their count. -/
def handleCatalogResource (cat : ComponentCatalog) : ResourceOut :=
  let formatted := (cat.components.filter (fun c => c.is_published)).map formatComponentSummary
  ResourceOut.catalogList formatted.length formatted

/-- `handleCategoryResource(slug)` from `src/server.ts`: the category header
(or `null` on an index miss) plus the published components whose category or
subcategory matches the slug. -/
def handleCategoryResource (cat : ComponentCatalog) (slug : String) : ResourceOut :=
  let comps := cat.components.filter
    (fun c => c.is_published && (c.category == slug || c.subcategory == slug))
  ResourceOut.categoryView
    ((categoriesBySlug cat slug).map (fun g => (g.slug, g.name, g.description)))
    (comps.map formatComponentSummary).length
    (comps.map formatComponentSummary)

/-- `handleComponentResource(idOrSlug)` from `src/server.ts`: unlike every tool
handler, an unresolvable reference here is
`throw new Error('Component not found: ...')`, modelled as `Except.error`. -/
def handleComponentResource (cat : ComponentCatalog) (idOrSlug : String) :
    Except String ResourceOut :=
  match getComponent cat idOrSlug with
  | none => Except.error ("Component not found: " ++ idOrSlug)
  | some c => Except.ok (ResourceOut.componentView c)

/-- The `ReadResourceRequestSchema` dispatch of `setupResourceHandlers`.  The
source splits the uri at `://` (`const [protocol, path] = uri.split('://')`);
the embedding takes the two halves directly.  `component://catalog` is the
catalog listing, `category://x` the category view, any other `component://x`
the single-component resource, and an unknown protocol throws. -/
def readResource (cat : ComponentCatalog) (protocol path : String) :
    Except String ResourceOut :=
  if protocol == "component" && path == "catalog" then
    Except.ok (handleCatalogResource cat)
  else if protocol == "category" then
    Except.ok (handleCategoryResource cat path)
  else if protocol == "component" then
    handleComponentResource cat path
  else
    Except.error ("Unknown resource: " ++ protocol ++ "://" ++ path)

/-- Does the computation deliver a payload rather than throw? -/
def exceptIsOk {ε α : Type} : Except ε α → Bool
  | Except.ok _ => true
  | Except.error _ => false

/-- C6 counterexample: a resource read of `component://nonexistent` on the
sample catalog — an invocation whose only problem is an id-or-slug that does
not resolve, not a malformed operation name — escapes as a thrown exception
instead of a structured error payload, contradicting the claim as stated. -/
theorem C6_never_throws_counterexample :
    readResource sampleCatalog "component" "nonexistent" =
      Except.error "Component not found: nonexistent" := by
  rfl

/-- C6 (amended): a tool call delivers a structured payload exactly when the
operation name is one of the fixed five — for those five the core never throws
whatever the arguments, and any other name escapes as an exception; resource
reads are the exception to never-throwing: `component://p` with an
unresolvable `p` (other than the reserved `catalog` key) escapes as a thrown
exception. -/
theorem C6_structured_errors (cat : ComponentCatalog) (name : String) (args : ToolArgs) :
    (exceptIsOk (callTool cat name args) = true ↔
      name ∈ ["search_components", "get_component", "list_categories",
        "assemble_page", "get_component_dependencies"]) ∧
    (∀ p, p ≠ "catalog" → getComponent cat p = none →
      readResource cat "component" p = Except.error ("Component not found: " ++ p)) := by
  constructor
  · unfold callTool
    split_ifs with h1 h2 h3 h4 h5 <;>
      simp_all [exceptIsOk, beq_iff_eq]
  · intro p hpc hpn
    have hfalse : (p == "catalog") = false := beq_eq_false_iff_ne.mpr hpc
    unfold readResource
    simp [hfalse, handleComponentResource, hpn]

/-- C6 witness: the amended theorem applied at the sample catalog with the
known tool name `search_components` and the unresolvable reference
`nonexistent`. -/
theorem C6_structured_errors_witness :
    exceptIsOk (callTool sampleCatalog "search_components" {}) = true ∧
    readResource sampleCatalog "component" "missing-slug" =
      Except.error "Component not found: missing-slug" := by
  have h := C6_structured_errors sampleCatalog "search_components" {}
  exact ⟨h.1.mpr (by decide), h.2 "missing-slug" (by decide) (by decide)⟩

end WebPixels
